import Mathlib

/-!
Shallow embedding of `src/z_models/linear_regression_v0.py`.

The file models the `StepByStep` training wrapper: a class that binds a
model, a loss function and an optimizer, and drives an epoch/mini-batch
training loop with loss bookkeeping, checkpoint save/load and TensorBoard
scalar logging.

The underlying tensor/autograd library (PyTorch) is modelled by an
abstract interface `Torch`: the script delegates the forward pass, the
loss computation, gradient computation (`loss.backward()`) and the
parameter update (`optimizer.step()`) entirely to the library, so these
appear as uninterpreted operations.  Scalar loss values (Python floats
produced by `loss.item()` and `np.mean`) are modelled as exact rationals.
-/

namespace LinRegV0

/-- String constant for the CPU device name used by the script. -/
def devCpu : String := "cpu"

/-- String constant for the CUDA device name used by the script. -/
def devCuda : String := "cuda"

/-- Main tag used by `train` when calling `writer.add_scalars`. -/
def tagLoss : String := "loss"

/-- Key under which `train` logs the training loss of an epoch. -/
def tagTraining : String := "training"

/-- Key under which `train` logs the validation loss of an epoch. -/
def tagValidation : String := "validation"

/-- Abstract interface to the underlying tensor/autograd library.
`P` is the type of model parameters (the model `state_dict`), `G` the
type of accumulated gradients, `O` the optimizer internal state (the
optimizer `state_dict`), `X` an input mini-batch, `Y` a target or
prediction mini-batch.

* `forward mode p x` is `model(x)` with `mode` the module's
  training/eval flag;
* `lossVal yhat y` is `loss_fn(yhat, y).item()`;
* `gradOf p x y` is the gradient that `loss.backward()` computes for
  the loss of the batch `(x, y)` at parameters `p`;
* `addGrad` is gradient accumulation performed by `backward`;
* `zeroGrad` is the gradient state after `optimizer.zero_grad()` (also
  the gradient state of a freshly constructed model);
* `optStep o p g` is `optimizer.step()`: it returns the new optimizer
  state and the updated parameters;
* `cuda_is_available` is `torch.cuda.is_available()`;
* `moveOk d` tells whether `model.to(d)` succeeds (otherwise it raises
  `RuntimeError`);
* `toDevX x d` / `toDevY y d` are `x.to(d)` / `y.to(d)`. -/
structure Torch (P G O X Y : Type) where
  forward : Bool → P → X → Y
  lossVal : Y → Y → ℚ
  gradOf : P → X → Y → G
  addGrad : G → G → G
  zeroGrad : G
  optStep : O → P → G → O × P
  cuda_is_available : Bool
  moveOk : String → Bool
  toDevX : X → String → X
  toDevY : Y → String → Y

/-- One record written to the TensorBoard `SummaryWriter`: either an
`add_scalars(main_tag, tag_scalar_dict, global_step)` call or an
`add_graph` call. -/
inductive LogEvent where
  | scalars (mainTag : String) (dict : List (String × Option ℚ)) (step : Nat)
  | graph
  deriving DecidableEq

/-- The TensorBoard `SummaryWriter`: its log directory, the list of
records written to it (in order), and whether `close()` was called. -/
structure Writer where
  log_dir : String
  events : List LogEvent
  closed : Bool
  deriving DecidableEq

/-- The dictionary built by `save_checkpoint` and read back by
`load_checkpoint`. -/
structure Checkpoint (P O : Type) where
  epoch : Nat
  model_state_dict : P
  optimizer_state_dict : O
  loss : List (Option ℚ)
  val_loss : List (Option ℚ)
  deriving DecidableEq

/-- The state of a `StepByStep` instance.  The Python attributes `model`
and `optimizer` are split into their observable parts: `params` and
`grads` together with the module's `training` flag and current device
make up the model; `optState` is the optimizer's internal state.  The
loss function and the library operations live in the ambient `Torch`
interface (in Python they are closed over by `train_step_fn` /
`val_step_fn`, which are created from the same attributes at
construction time and never change). -/
structure StepByStep (P G O X Y : Type) where
  params : P
  grads : G
  optState : O
  training : Bool
  modelDevice : String
  device : String
  train_loader : Option (List (X × Y))
  val_loader : Option (List (X × Y))
  writer : Option Writer
  losses : List (Option ℚ)
  val_losses : List (Option ℚ)
  total_epochs : Nat
  deriving DecidableEq

/-- `np.mean` on a list of scalars, as exact rational arithmetic
(`sum / length`).  The script only applies it to the per-mini-batch
loss lists; on an empty list `np.mean` would return NaN, which has no
counterpart here, so statements about it assume a nonempty list. -/
def npMean (l : List ℚ) : ℚ := l.sum / (l.length : ℚ)

/-- The default device expression `'cuda' if torch.cuda.is_available()
else 'cpu'`, used both by `__init__` and by the fallback branch of
`to`. -/
def defaultDevice {P G O X Y : Type} (T : Torch P G O X Y) : String :=
  if T.cuda_is_available then devCuda else devCpu

/-- `StepByStep.__init__(model, loss_fn, optimizer)`: stores the
arguments, picks the default device and sends the model there, sets the
loaders and writer to `None`, and starts with empty loss histories and
`total_epochs = 0`.  A fresh module is in training mode with no
accumulated gradients. -/
def StepByStep.init {P G O X Y : Type} (T : Torch P G O X Y) (p : P) (o : O) :
    StepByStep P G O X Y :=
  { params := p
    grads := T.zeroGrad
    optState := o
    training := true
    modelDevice := defaultDevice T
    device := defaultDevice T
    train_loader := none
    val_loader := none
    writer := none
    losses := []
    val_losses := []
    total_epochs := 0 }

/-- `StepByStep.to(device)`: sets `self.device` and moves the model; on
`RuntimeError` it falls back to the default device and moves the model
there.  The returned Bool is `true` when a `RuntimeError` escapes the
method (the fallback move itself failed); in that case `self.device`
was already overwritten with the fallback device but the model was not
moved. -/
def StepByStep.to {P G O X Y : Type} (T : Torch P G O X Y)
    (s : StepByStep P G O X Y) (device : String) :
    StepByStep P G O X Y × Bool :=
  if T.moveOk device then
    ({ s with device := device, modelDevice := device }, false)
  else if T.moveOk (defaultDevice T) then
    ({ s with device := defaultDevice T, modelDevice := defaultDevice T }, false)
  else
    ({ s with device := defaultDevice T }, true)

/-- `StepByStep.set_loaders(train_loader, val_loader=None)`. -/
def StepByStep.set_loaders {P G O X Y : Type} (s : StepByStep P G O X Y)
    (tl vl : Option (List (X × Y))) : StepByStep P G O X Y :=
  { s with train_loader := tl, val_loader := vl }

/-- `StepByStep.set_tensorboard(name, folder='runs', suffix=None)`:
installs a fresh `SummaryWriter` with log dir
`f'\x7bfolder\x7d/\x7bname\x7d_\x7bsuffix\x7d'`. -/
def StepByStep.set_tensorboard {P G O X Y : Type} (s : StepByStep P G O X Y)
    (name folder suffix : String) : StepByStep P G O X Y :=
  { s with writer := some { log_dir := folder ++ "/" ++ name ++ "_" ++ suffix
                            events := []
                            closed := false } }

/-- `perform_train_step_fn(x, y)` (built by `_make_train_step_fn`): set
the model to train mode, forward pass, loss, `loss.backward()` (which
accumulates gradients), `optimizer.step()`, `optimizer.zero_grad()`,
and return `loss.item()`. -/
def StepByStep.perform_train_step_fn {P G O X Y : Type} (T : Torch P G O X Y)
    (s : StepByStep P G O X Y) (x : X) (y : Y) : StepByStep P G O X Y × ℚ :=
  let s1 := { s with training := true }
  let yhat := T.forward true s1.params x
  let l := T.lossVal yhat y
  let s2 := { s1 with grads := T.addGrad s1.grads (T.gradOf s1.params x y) }
  let upd := T.optStep s2.optState s2.params s2.grads
  let s3 := { s2 with optState := upd.1, params := upd.2 }
  let s4 := { s3 with grads := T.zeroGrad }
  (s4, l)

/-- `perform_val_step_fn(x, y)` (built by `_make_val_step_fn`): set the
model to eval mode, forward pass, loss, and return `loss.item()`; no
backward pass and no optimizer step. -/
def StepByStep.perform_val_step_fn {P G O X Y : Type} (T : Torch P G O X Y)
    (s : StepByStep P G O X Y) (x : X) (y : Y) : StepByStep P G O X Y × ℚ :=
  let s1 := { s with training := false }
  (s1, T.lossVal (T.forward false s1.params x) y)

/-- The step function `_mini_batch` selects: `val_step_fn` when
`validation` else `train_step_fn`. -/
def StepByStep.step_fn {P G O X Y : Type} (T : Torch P G O X Y)
    (validation : Bool) :
    StepByStep P G O X Y → X → Y → StepByStep P G O X Y × ℚ :=
  if validation then StepByStep.perform_val_step_fn T
  else StepByStep.perform_train_step_fn T

/-- `StepByStep._mini_batch(validation=False)`: pick the loader and step
function according to `validation`; if the loader is `None` return
`None`; otherwise run the step function on every batch (after moving it
to `self.device`), collect the per-batch losses, and return their
`np.mean`. -/
def StepByStep.mini_batch {P G O X Y : Type} (T : Torch P G O X Y)
    (s : StepByStep P G O X Y) (validation : Bool) :
    StepByStep P G O X Y × Option ℚ :=
  match (if validation then s.val_loader else s.train_loader) with
  | none => (s, none)
  | some loader =>
    let r := loader.foldl
      (fun acc b =>
        let st := StepByStep.step_fn T validation acc.1
          (T.toDevX b.1 acc.1.device) (T.toDevY b.2 acc.1.device)
        (st.1, acc.2 ++ [st.2]))
      (s, ([] : List ℚ))
    (r.1, some (npMean r.2))

/-- `StepByStep.set_seed(seed=42)` only seeds the library RNGs
(`torch.manual_seed`, `np.random.seed`, cudnn flags); no RNG is part of
this embedding (the loaders are fixed batch lists), so it is the
identity on the modelled state. -/
def StepByStep.set_seed {P G O X Y : Type} (s : StepByStep P G O X Y)
    (_seed : Nat) : StepByStep P G O X Y :=
  s

/-- The optional `'validation'` entry of the per-epoch scalar
dictionary built by `train` (`scalars.update(\x7b'validation':
val_loss\x7d)` guarded by `if val_loss is not None`): present exactly
when the validation value of the epoch is not `None`. -/
def valEntry : Option ℚ → List (String × Option ℚ)
  | none => []
  | some v => [(tagValidation, some v)]

/-- The body of the `for epoch in range(n_epochs)` loop of
`StepByStep.train`: bump `total_epochs`, run a training pass and append
its result to `losses`, run a validation pass (under `no_grad`, which
changes nothing here because the validation step performs no backward)
and append its result to `val_losses`, then, if a writer is set, record
the scalars `'training'` and, when the validation value is not `None`,
`'validation'` under the main tag `'loss'` at `global_step = epoch`. -/
def StepByStep.trainEpoch {P G O X Y : Type} (T : Torch P G O X Y)
    (epoch : Nat) (s : StepByStep P G O X Y) : StepByStep P G O X Y :=
  let s1 := { s with total_epochs := s.total_epochs + 1 }
  let mb := StepByStep.mini_batch T s1 false
  let s2 := { mb.1 with losses := mb.1.losses ++ [mb.2] }
  let vb := StepByStep.mini_batch T s2 true
  let s3 := { vb.1 with val_losses := vb.1.val_losses ++ [vb.2] }
  match s3.writer with
  | none => s3
  | some w =>
    let scalars : List (String × Option ℚ) := (tagTraining, mb.2) :: valEntry vb.2
    { s3 with writer :=
        (some { w with events := w.events ++ [LogEvent.scalars tagLoss scalars epoch] }) }

/-- The epoch loop of `StepByStep.train`: `trainEpoch` for each
`epoch in range(n_epochs)`. -/
def StepByStep.runEpochs {P G O X Y : Type} (T : Torch P G O X Y)
    (n : Nat) (s : StepByStep P G O X Y) : StepByStep P G O X Y :=
  (List.range n).foldl (fun s e => StepByStep.trainEpoch T e s) s

/-- `StepByStep.train(n_epochs, seed=42)`: seed the RNGs, run the epoch
loop, and finally close the writer if one is set. -/
def StepByStep.train {P G O X Y : Type} (T : Torch P G O X Y)
    (s : StepByStep P G O X Y) (n_epochs : Nat) (seed : Nat) :
    StepByStep P G O X Y :=
  let s0 := StepByStep.set_seed s seed
  let s1 := StepByStep.runEpochs T n_epochs s0
  match s1.writer with
  | none => s1
  | some w => { s1 with writer := some { w with closed := true } }

/-- `StepByStep.save_checkpoint(filename)`: build the checkpoint
dictionary from the current state and `torch.save` it under `filename`.
The file system is modelled as a map from file names to checkpoints;
the state of the instance itself is unchanged. -/
def StepByStep.save_checkpoint {P G O X Y : Type} (s : StepByStep P G O X Y)
    (fs : String → Option (Checkpoint P O)) (filename : String) :
    String → Option (Checkpoint P O) :=
  fun f =>
    if f = filename then
      some { epoch := s.total_epochs
             model_state_dict := s.params
             optimizer_state_dict := s.optState
             loss := s.losses
             val_loss := s.val_losses }
    else fs f

/-- `StepByStep.load_checkpoint(filename)`: `torch.load` the checkpoint
(`none` models the exception raised when the file does not exist),
restore model and optimizer state dicts, `total_epochs` and both loss
histories, and put the model in train mode. -/
def StepByStep.load_checkpoint {P G O X Y : Type} (s : StepByStep P G O X Y)
    (fs : String → Option (Checkpoint P O)) (filename : String) :
    Option (StepByStep P G O X Y) :=
  match fs filename with
  | none => none
  | some c =>
    some { s with params := c.model_state_dict
                  optState := c.optimizer_state_dict
                  total_epochs := c.epoch
                  losses := c.loss
                  val_losses := c.val_loss
                  training := true }

/-- `StepByStep.predict(x)`: eval mode, forward pass on the input moved
to the device, back to train mode, return the prediction. -/
def StepByStep.predict {P G O X Y : Type} (T : Torch P G O X Y)
    (s : StepByStep P G O X Y) (x : X) : StepByStep P G O X Y × Y :=
  let s1 := { s with training := false }
  let y := T.forward false s1.params (T.toDevX x s1.device)
  let s2 := { s1 with training := true }
  (s2, y)

/-- `StepByStep.add_graph()`: if a train loader and a writer are set,
fetch the first batch and record the model graph.  When the loader
yields no batch, `next(iter(...))` raises before anything is written,
leaving the state unchanged. -/
def StepByStep.add_graph {P G O X Y : Type} (s : StepByStep P G O X Y) :
    StepByStep P G O X Y :=
  match s.train_loader, s.writer with
  | some (_ :: _), some w =>
    { s with writer := some { w with events := w.events ++ [LogEvent.graph] } }
  | _, _ => s

/-- Reference recursion for the mini-batch loop of `_mini_batch`: run
`step` on every batch of the loader (each moved to the current device
first), threading the state, and collect the returned per-batch losses
in loader order. -/
def runBatches {P G O X Y : Type} (T : Torch P G O X Y)
    (step : StepByStep P G O X Y → X → Y → StepByStep P G O X Y × ℚ) :
    StepByStep P G O X Y → List (X × Y) → StepByStep P G O X Y × List ℚ
  | s, [] => (s, [])
  | s, b :: bs =>
    let st := step s (T.toDevX b.1 s.device) (T.toDevY b.2 s.device)
    let rest := runBatches T step st.1 bs
    (rest.1, st.2 :: rest.2)

/-- The scalar record `train` writes for one epoch: main tag `'loss'`,
the `'training'` loss always, the `'validation'` loss only when it is
not `None`, at `global_step = e`. -/
def epochEvent (l v : Option ℚ) (e : Nat) : LogEvent :=
  LogEvent.scalars tagLoss ((tagTraining, l) :: valEntry v) e

/-- The scalar records written for a run of consecutive epochs whose
(training, validation) loss pairs are `ps`, starting at global step
`e`. -/
def epochEvents : Nat → List (Option ℚ × Option ℚ) → List LogEvent
  | _, [] => []
  | e, p :: ps => epochEvent p.1 p.2 e :: epochEvents (e + 1) ps

/-- The invariant that the training and validation loss histories have
equal length. -/
def lockstep {P G O X Y : Type} (s : StepByStep P G O X Y) : Prop :=
  s.losses.length = s.val_losses.length

/-- The state at the start of an epoch body, after `total_epochs` was
bumped. -/
def epochBump {P G O X Y : Type} (s : StepByStep P G O X Y) :
    StepByStep P G O X Y :=
  { s with total_epochs := s.total_epochs + 1 }

/-- The value the training pass of an epoch produces (the first thing
appended by the epoch body, before any validation work). -/
def epochTrainLoss {P G O X Y : Type} (T : Torch P G O X Y)
    (s : StepByStep P G O X Y) : Option ℚ :=
  (StepByStep.mini_batch T (epochBump s) false).2

/-- The state after the training pass of an epoch and the append to
`losses`, i.e. the state from which the validation pass runs. -/
def epochAfterTrain {P G O X Y : Type} (T : Torch P G O X Y)
    (s : StepByStep P G O X Y) : StepByStep P G O X Y :=
  let mb := StepByStep.mini_batch T (epochBump s) false
  { mb.1 with losses := mb.1.losses ++ [mb.2] }

/-- The value the validation pass of an epoch produces: it is computed
after the training pass of the same epoch, from the post-training
state. -/
def epochValLoss {P G O X Y : Type} (T : Torch P G O X Y)
    (s : StepByStep P G O X Y) : Option ℚ :=
  (StepByStep.mini_batch T (epochAfterTrain T s) true).2

/-- Concrete instantiation of the library interface: the
single-parameter linear model `yhat = w * x` with squared-error loss
and plain gradient descent with learning rate `lr` (the `main()` setup
of the script, reduced to one parameter).  CUDA is unavailable and only
the CPU device exists. -/
def linTorch (lr : ℚ) : Torch ℚ ℚ Unit ℚ ℚ where
  forward := fun _ w x => w * x
  lossVal := fun yhat y => (yhat - y) * (yhat - y)
  gradOf := fun w x y => 2 * (w * x - y) * x
  addGrad := fun g h => g + h
  zeroGrad := 0
  optStep := fun o w g => (o, w - lr * g)
  cuda_is_available := false
  moveOk := fun d => d == devCpu
  toDevX := fun x _ => x
  toDevY := fun y _ => y

/-- A freshly constructed `StepByStep` over `linTorch lr` with initial
weight `w0` and a single-batch train loader holding the one data point
`(x, y)`; no validation loader, no writer. -/
def linState (lr w0 x y : ℚ) : StepByStep ℚ ℚ Unit ℚ ℚ :=
  StepByStep.set_loaders (StepByStep.init (linTorch lr) w0 ()) (some [(x, y)]) none

/-- One gradient-descent update of the weight for the data point
`(x, y)` with learning rate `lr`. -/
def wstep (lr x y w : ℚ) : ℚ := w - lr * (2 * (w * x - y) * x)

/-- The weight after `k` epochs of training `linTorch` on the single
data point `(x, y)`. -/
def wseq (lr x y w0 : ℚ) : Nat → ℚ
  | 0 => w0
  | k + 1 => wstep lr x y (wseq lr x y w0 k)

/-- The squared-error training loss of weight `w` on the data point
`(x, y)`. -/
def sqErr (x y w : ℚ) : ℚ := (w * x - y) * (w * x - y)

/-- `linState 1 1 1 0` with a TensorBoard writer installed via
`set_tensorboard`. -/
def linStateTB : StepByStep ℚ ℚ Unit ℚ ℚ :=
  StepByStep.set_tensorboard (linState 1 1 1 0) devCpu devCpu devCpu

/-- The fresh writer `set_tensorboard` installs in `linStateTB`. -/
def tbWriter0 : Writer :=
  { log_dir := devCpu ++ "/" ++ devCpu ++ "_" ++ devCpu
    events := []
    closed := false }

/-- Equality of all fields of a `StepByStep` state except the model and
optimizer contents (`params`, `grads`, `optState`) and the module mode
(`training`): the fields a step function leaves untouched. -/
def shellEq {P G O X Y : Type} (s t : StepByStep P G O X Y) : Prop :=
  t.modelDevice = s.modelDevice ∧ t.device = s.device ∧
  t.train_loader = s.train_loader ∧ t.val_loader = s.val_loader ∧
  t.writer = s.writer ∧ t.losses = s.losses ∧
  t.val_losses = s.val_losses ∧ t.total_epochs = s.total_epochs

section Lemmas

variable {P G O X Y : Type}

/-- Net effect of `perform_train_step_fn`: the returned scalar is the
loss of the forward pass at the parameters from before the update, the
optimizer update consumes the gradient accumulated by `backward`, and
the gradients are zeroed after the step. -/
theorem train_step_shape (T : Torch P G O X Y) (s : StepByStep P G O X Y)
    (x : X) (y : Y) :
    StepByStep.perform_train_step_fn T s x y =
      ({ s with training := true
                grads := T.zeroGrad
                optState := (T.optStep s.optState s.params
                  (T.addGrad s.grads (T.gradOf s.params x y))).1
                params := (T.optStep s.optState s.params
                  (T.addGrad s.grads (T.gradOf s.params x y))).2 },
        T.lossVal (T.forward true s.params x) y) := rfl

/-- Net effect of `perform_val_step_fn`: eval mode and the loss of the
forward pass; nothing else changes. -/
theorem val_step_shape (T : Torch P G O X Y) (s : StepByStep P G O X Y)
    (x : X) (y : Y) :
    StepByStep.perform_val_step_fn T s x y =
      ({ s with training := false },
        T.lossVal (T.forward false s.params x) y) := rfl

theorem shellEq_refl (s : StepByStep P G O X Y) : shellEq s s :=
  ⟨rfl, rfl, rfl, rfl, rfl, rfl, rfl, rfl⟩

theorem shellEq_trans {s t u : StepByStep P G O X Y}
    (h1 : shellEq s t) (h2 : shellEq t u) : shellEq s u := by
  obtain ⟨a1, a2, a3, a4, a5, a6, a7, a8⟩ := h1
  obtain ⟨b1, b2, b3, b4, b5, b6, b7, b8⟩ := h2
  exact ⟨b1.trans a1, b2.trans a2, b3.trans a3, b4.trans a4,
    b5.trans a5, b6.trans a6, b7.trans a7, b8.trans a8⟩

/-- Both step functions only touch the model/optimizer fields. -/
theorem step_fn_shellEq (T : Torch P G O X Y) (v : Bool)
    (s : StepByStep P G O X Y) (x : X) (y : Y) :
    shellEq s ((StepByStep.step_fn T v) s x y).1 := by
  cases v <;>
    exact ⟨rfl, rfl, rfl, rfl, rfl, rfl, rfl, rfl⟩

/-- The mini-batch loop only touches the model/optimizer fields, for
any step function that does so. -/
theorem runBatches_shellEq (T : Torch P G O X Y)
    (step : StepByStep P G O X Y → X → Y → StepByStep P G O X Y × ℚ)
    (hstep : ∀ s x y, shellEq s ((step s x y).1)) :
    ∀ (bs : List (X × Y)) (s : StepByStep P G O X Y),
      shellEq s ((runBatches T step s bs).1)
  | [], s => shellEq_refl s
  | b :: bs, s => by
    have h1 := hstep s (T.toDevX b.1 s.device) (T.toDevY b.2 s.device)
    have h2 := runBatches_shellEq T step hstep bs
      ((step s (T.toDevX b.1 s.device) (T.toDevY b.2 s.device)).1)
    exact shellEq_trans h1 h2

/-- The mini-batch `for` loop (a left fold carrying the state and the
list of collected per-batch losses) equals the reference recursion
`runBatches`. -/
theorem foldl_runBatches (T : Torch P G O X Y)
    (step : StepByStep P G O X Y → X → Y → StepByStep P G O X Y × ℚ) :
    ∀ (bs : List (X × Y)) (s : StepByStep P G O X Y) (acc : List ℚ),
      bs.foldl
        (fun acc b =>
          let st := step acc.1 (T.toDevX b.1 acc.1.device) (T.toDevY b.2 acc.1.device)
          (st.1, acc.2 ++ [st.2]))
        (s, acc)
      = ((runBatches T step s bs).1, acc ++ (runBatches T step s bs).2)
  | [], s, acc => by simp [runBatches]
  | b :: bs, s, acc => by
    simp only [List.foldl_cons, runBatches]
    rw [foldl_runBatches T step bs]
    simp

/-- `_mini_batch` when the selected loader is absent: `None`, state
untouched. -/
theorem mini_batch_none (T : Torch P G O X Y) (s : StepByStep P G O X Y)
    (v : Bool) (h : (if v then s.val_loader else s.train_loader) = none) :
    StepByStep.mini_batch T s v = (s, none) := by
  unfold StepByStep.mini_batch
  rw [h]

/-- `_mini_batch` when the selected loader is present: it runs the step
function over the batches in loader order and returns the `np.mean` of
the collected losses. -/
theorem mini_batch_some (T : Torch P G O X Y) (s : StepByStep P G O X Y)
    (v : Bool) (bs : List (X × Y))
    (h : (if v then s.val_loader else s.train_loader) = some bs) :
    StepByStep.mini_batch T s v =
      ((runBatches T (StepByStep.step_fn T v) s bs).1,
        some (npMean (runBatches T (StepByStep.step_fn T v) s bs).2)) := by
  unfold StepByStep.mini_batch
  rw [h]
  simp only [foldl_runBatches T (StepByStep.step_fn T v) bs s []]
  simp

/-- `_mini_batch` only touches the model/optimizer fields. -/
theorem mini_batch_shellEq (T : Torch P G O X Y) (s : StepByStep P G O X Y)
    (v : Bool) : shellEq s ((StepByStep.mini_batch T s v).1) := by
  cases h : (if v then s.val_loader else s.train_loader) with
  | none => rw [mini_batch_none T s v h]; exact shellEq_refl s
  | some bs =>
    rw [mini_batch_some T s v bs h]
    exact runBatches_shellEq T _ (step_fn_shellEq T v) bs s

/-- One per-batch loss is collected for every batch of the loader. -/
theorem runBatches_length (T : Torch P G O X Y)
    (step : StepByStep P G O X Y → X → Y → StepByStep P G O X Y × ℚ) :
    ∀ (bs : List (X × Y)) (s : StepByStep P G O X Y),
      (runBatches T step s bs).2.length = bs.length
  | [], _ => rfl
  | b :: bs, s => by
    simp [runBatches, runBatches_length T step bs]

/-- A validation step leaves parameters, gradients and optimizer state
untouched. -/
theorem val_step_core (T : Torch P G O X Y) (s : StepByStep P G O X Y)
    (x : X) (y : Y) :
    ((StepByStep.perform_val_step_fn T) s x y).1.params = s.params ∧
    ((StepByStep.perform_val_step_fn T) s x y).1.grads = s.grads ∧
    ((StepByStep.perform_val_step_fn T) s x y).1.optState = s.optState :=
  ⟨rfl, rfl, rfl⟩

/-- A full pass of validation steps leaves parameters, gradients and
optimizer state untouched. -/
theorem runBatches_val_core (T : Torch P G O X Y) :
    ∀ (bs : List (X × Y)) (s : StepByStep P G O X Y),
      (runBatches T (StepByStep.perform_val_step_fn T) s bs).1.params = s.params ∧
      (runBatches T (StepByStep.perform_val_step_fn T) s bs).1.grads = s.grads ∧
      (runBatches T (StepByStep.perform_val_step_fn T) s bs).1.optState = s.optState
  | [], s => ⟨rfl, rfl, rfl⟩
  | b :: bs, s => by
    have ih := runBatches_val_core T bs
      ((StepByStep.perform_val_step_fn T s (T.toDevX b.1 s.device) (T.toDevY b.2 s.device)).1)
    simpa [runBatches] using ih

/-- Shape of one epoch body: it appends exactly the training-pass value
to `losses` and then the validation-pass value to `val_losses`, bumps
`total_epochs` by one, leaves the loaders and devices alone, and, when
a writer is present, appends exactly the per-epoch scalar record. -/
theorem trainEpoch_shape (T : Torch P G O X Y) (e : Nat)
    (s : StepByStep P G O X Y) :
    (StepByStep.trainEpoch T e s).losses = s.losses ++ [epochTrainLoss T s] ∧
    (StepByStep.trainEpoch T e s).val_losses = s.val_losses ++ [epochValLoss T s] ∧
    (StepByStep.trainEpoch T e s).total_epochs = s.total_epochs + 1 ∧
    (StepByStep.trainEpoch T e s).train_loader = s.train_loader ∧
    (StepByStep.trainEpoch T e s).val_loader = s.val_loader ∧
    (StepByStep.trainEpoch T e s).device = s.device ∧
    (StepByStep.trainEpoch T e s).modelDevice = s.modelDevice ∧
    (StepByStep.trainEpoch T e s).writer =
      (match s.writer with
        | none => none
        | some w => some { w with events := w.events ++
            [epochEvent (epochTrainLoss T s) (epochValLoss T s) e] }) := by
  obtain ⟨p, g, o, tr, md, dv, tl, vl, w, ls, vls, te⟩ := s
  obtain ⟨m1, m2, m3, m4, m5, m6, m7, m8⟩ :=
    mini_batch_shellEq T (epochBump ⟨p, g, o, tr, md, dv, tl, vl, w, ls, vls, te⟩) false
  obtain ⟨v1, v2, v3, v4, v5, v6, v7, v8⟩ :=
    mini_batch_shellEq T (epochAfterTrain T ⟨p, g, o, tr, md, dv, tl, vl, w, ls, vls, te⟩) true
  cases w <;>
    simp_all [epochBump, epochAfterTrain, epochTrainLoss, epochValLoss,
      StepByStep.trainEpoch, epochEvent]

theorem runEpochs_zero (T : Torch P G O X Y) (s : StepByStep P G O X Y) :
    StepByStep.runEpochs T 0 s = s := rfl

/-- Unrolling the last epoch of the loop. -/
theorem runEpochs_succ (T : Torch P G O X Y) (n : Nat)
    (s : StepByStep P G O X Y) :
    StepByStep.runEpochs T (n + 1) s =
      StepByStep.trainEpoch T n (StepByStep.runEpochs T n s) := by
  unfold StepByStep.runEpochs
  rw [List.range_succ, List.foldl_append]
  rfl

/-- Appending one epoch record to the scalar log. -/
theorem epochEvents_snoc (st : Nat) (ps : List (Option ℚ × Option ℚ))
    (p : Option ℚ × Option ℚ) :
    epochEvents st (ps ++ [p]) =
      epochEvents st ps ++ [epochEvent p.1 p.2 (st + ps.length)] := by
  induction ps generalizing st with
  | nil => simp [epochEvents]
  | cons q ps ih =>
    have harith : st + 1 + ps.length = st + (ps.length + 1) := by omega
    simp [epochEvents, ih, harith]

/-- A training pass with no train loader produces `None`. -/
theorem epochTrainLoss_none (T : Torch P G O X Y) (s : StepByStep P G O X Y)
    (h : s.train_loader = none) : epochTrainLoss T s = none := by
  unfold epochTrainLoss
  rw [mini_batch_none T (epochBump s) false (by simpa [epochBump] using h)]

/-- A validation pass with no validation loader produces `None`. -/
theorem epochValLoss_none (T : Torch P G O X Y) (s : StepByStep P G O X Y)
    (h : s.val_loader = none) : epochValLoss T s = none := by
  have hm := (mini_batch_shellEq T (epochBump s) false).2.2.2.1
  have hv : (epochAfterTrain T s).val_loader = none := by
    simp only [epochAfterTrain]
    show (StepByStep.mini_batch T (epochBump s) false).1.val_loader = none
    rw [hm]
    simpa [epochBump] using h
  unfold epochValLoss
  rw [mini_batch_none T (epochAfterTrain T s) true (by simpa using hv)]

/-- Master description of the epoch loop: it appends one training value
and one validation value per epoch, bumps `total_epochs` accordingly,
leaves the loaders alone, leaves an absent writer absent, appends to a
present writer exactly the per-epoch scalar records of the appended
loss pairs, and produces `None` entries whenever the corresponding
loader is absent. -/
theorem runEpochs_spec (T : Torch P G O X Y) (s : StepByStep P G O X Y) :
    ∀ n : Nat, ∃ ls vls : List (Option ℚ),
      ls.length = n ∧ vls.length = n ∧
      (StepByStep.runEpochs T n s).losses = s.losses ++ ls ∧
      (StepByStep.runEpochs T n s).val_losses = s.val_losses ++ vls ∧
      (StepByStep.runEpochs T n s).total_epochs = s.total_epochs + n ∧
      (StepByStep.runEpochs T n s).train_loader = s.train_loader ∧
      (StepByStep.runEpochs T n s).val_loader = s.val_loader ∧
      (s.writer = none → (StepByStep.runEpochs T n s).writer = none) ∧
      (∀ w, s.writer = some w →
        (StepByStep.runEpochs T n s).writer =
          some { w with events := w.events ++ epochEvents 0 (ls.zip vls) }) ∧
      (s.train_loader = none → ls = List.replicate n none) ∧
      (s.val_loader = none → vls = List.replicate n none)
  | 0 => by
    refine ⟨[], [], ?_⟩
    simp [runEpochs_zero, epochEvents]
  | n + 1 => by
    obtain ⟨ls, vls, h1, h2, h3, h4, h5, h6, h7, h8, h9, h10, h11⟩ :=
      runEpochs_spec T s n
    obtain ⟨e1, e2, e3, e4, e5, e6, e7, e8⟩ :=
      trainEpoch_shape T n (StepByStep.runEpochs T n s)
    refine ⟨ls ++ [epochTrainLoss T (StepByStep.runEpochs T n s)],
      vls ++ [epochValLoss T (StepByStep.runEpochs T n s)],
      ?_, ?_, ?_, ?_, ?_, ?_, ?_, ?_, ?_, ?_, ?_⟩
    · simp [h1]
    · simp [h2]
    · rw [runEpochs_succ, e1, h3, List.append_assoc]
    · rw [runEpochs_succ, e2, h4, List.append_assoc]
    · rw [runEpochs_succ, e3, h5, Nat.add_assoc]
    · rw [runEpochs_succ, e4, h6]
    · rw [runEpochs_succ, e5, h7]
    · intro hw
      rw [runEpochs_succ, e8, h8 hw]
    · intro w hw
      rw [runEpochs_succ, e8, h9 w hw]
      have hzip : (ls ++ [epochTrainLoss T (StepByStep.runEpochs T n s)]).zip
          (vls ++ [epochValLoss T (StepByStep.runEpochs T n s)]) =
          ls.zip vls ++ [(epochTrainLoss T (StepByStep.runEpochs T n s),
            epochValLoss T (StepByStep.runEpochs T n s))] := by
        rw [List.zip_append (h1.trans h2.symm)]
        rfl
      rw [hzip, epochEvents_snoc]
      have hlen : (ls.zip vls).length = n := by
        rw [List.length_zip, h1, h2, Nat.min_self]
      rw [hlen]
      simp
    · intro hw
      rw [h10 hw, epochTrainLoss_none T (StepByStep.runEpochs T n s) (h6.trans hw)]
      exact (List.replicate_succ' n none).symm
    · intro hw
      rw [h11 hw, epochValLoss_none T (StepByStep.runEpochs T n s) (h7.trans hw)]
      exact (List.replicate_succ' n none).symm

/-- `train` differs from its epoch loop only in the writer field. -/
theorem train_shell (T : Torch P G O X Y) (s : StepByStep P G O X Y)
    (n seed : Nat) :
    (StepByStep.train T s n seed).losses = (StepByStep.runEpochs T n s).losses ∧
    (StepByStep.train T s n seed).val_losses = (StepByStep.runEpochs T n s).val_losses ∧
    (StepByStep.train T s n seed).total_epochs = (StepByStep.runEpochs T n s).total_epochs ∧
    (StepByStep.train T s n seed).train_loader = (StepByStep.runEpochs T n s).train_loader ∧
    (StepByStep.train T s n seed).val_loader = (StepByStep.runEpochs T n s).val_loader := by
  unfold StepByStep.train StepByStep.set_seed
  cases hw : (StepByStep.runEpochs T n s).writer <;> simp [hw]

/-- With no writer after the epoch loop, `train` does not touch the
writer. -/
theorem train_writer_none (T : Torch P G O X Y) (s : StepByStep P G O X Y)
    (n seed : Nat) (h : (StepByStep.runEpochs T n s).writer = none) :
    (StepByStep.train T s n seed).writer = none := by
  unfold StepByStep.train StepByStep.set_seed
  simp [h]

/-- With a writer present after the epoch loop, `train` closes it. -/
theorem train_writer_some (T : Torch P G O X Y) (s : StepByStep P G O X Y)
    (n seed : Nat) (w : Writer)
    (h : (StepByStep.runEpochs T n s).writer = some w) :
    (StepByStep.train T s n seed).writer = some { w with closed := true } := by
  unfold StepByStep.train StepByStep.set_seed
  simp [h]

/-- Scalar records of epochs whose validation value is `None` carry no
`'validation'` entry: they are bare `'training'` records. -/
theorem epochEvents_no_val (st : Nat) (ps : List (Option ℚ × Option ℚ))
    (h : ∀ p ∈ ps, p.2 = none) :
    ∀ ev ∈ epochEvents st ps,
      ∃ l k, ev = LogEvent.scalars tagLoss [(tagTraining, l)] k := by
  induction ps generalizing st with
  | nil => simp [epochEvents]
  | cons q ps ih =>
    intro ev hev
    simp only [epochEvents, List.mem_cons] at hev
    cases hev with
    | inl he =>
      refine ⟨q.1, st, ?_⟩
      rw [he]
      have hq : q.2 = none := h q (List.mem_cons_self q ps)
      simp [epochEvent, hq, valEntry]
    | inr he => exact ih (st + 1) (fun p hp => h p (List.mem_cons_of_mem q hp)) ev he

end Lemmas

/-- `np.mean` of a one-element list is that element. -/
theorem npMean_singleton (q : ℚ) : npMean [q] = q := by
  simp [npMean]

/-- One epoch of `linTorch` on the single-batch loader `[(x, y)]` with
no validation loader and no writer: it performs one gradient-descent
update and records the pre-update squared error. -/
theorem lin_epoch (lr x y : ℚ) (e : Nat) (s : StepByStep ℚ ℚ Unit ℚ ℚ)
    (hg : s.grads = 0) (htl : s.train_loader = some [(x, y)])
    (hvl : s.val_loader = none) (hw : s.writer = none) :
    StepByStep.trainEpoch (linTorch lr) e s =
      { s with training := true
               grads := 0
               params := wstep lr x y s.params
               losses := s.losses ++ [some (sqErr x y s.params)]
               val_losses := s.val_losses ++ [none]
               total_epochs := s.total_epochs + 1 } := by
  obtain ⟨p, g, o, tr, md, dv, tl, vl, w, ls, vls, te⟩ := s
  cases o
  simp only [] at hg htl hvl hw
  subst hg htl hvl hw
  simp [StepByStep.trainEpoch, StepByStep.mini_batch, StepByStep.step_fn,
    StepByStep.perform_train_step_fn, linTorch, npMean_singleton, wstep, sqErr]

/-- The epoch loop of `linTorch` from a fresh `linState`: after `n`
epochs the weight is `wseq n`, the loss history is the squared error at
each intermediate weight, and the validation history is all `None`. -/
theorem lin_run (lr x y w0 : ℚ) :
    ∀ n : Nat, StepByStep.runEpochs (linTorch lr) n (linState lr w0 x y) =
      { linState lr w0 x y with
        training := true
        grads := 0
        params := wseq lr x y w0 n
        losses := (List.range n).map (fun k => some (sqErr x y (wseq lr x y w0 k)))
        val_losses := List.replicate n none
        total_epochs := n }
  | 0 => by
    simp [runEpochs_zero, wseq, linState, StepByStep.set_loaders, StepByStep.init, linTorch]
  | n + 1 => by
    rw [runEpochs_succ, lin_run lr x y w0 n, lin_epoch lr x y n _ rfl rfl rfl rfl]
    simp [wseq, List.range_succ, List.replicate_succ']

/-- `train` of `linTorch` from a fresh `linState` (no writer): the full
closed form of the resulting state. -/
theorem lin_train (lr x y w0 : ℚ) (n seed : Nat) :
    StepByStep.train (linTorch lr) (linState lr w0 x y) n seed =
      { linState lr w0 x y with
        training := true
        grads := 0
        params := wseq lr x y w0 n
        losses := (List.range n).map (fun k => some (sqErr x y (wseq lr x y w0 k)))
        val_losses := List.replicate n none
        total_epochs := n } := by
  unfold StepByStep.train StepByStep.set_seed
  simp only [lin_run lr x y w0 n]
  simp [linState, StepByStep.set_loaders, StepByStep.init, linTorch]

section Claims

variable {P G O X Y : Type}

/-- C1: Checkpoint round-trip.  `save_checkpoint(filename)` followed by
`load_checkpoint(filename)` on the same or a structurally identical
instance restores `total_epochs`, `losses`, `val_losses`, the model
state dict (`params`) and the optimizer state dict (`optState`) to
exactly their values at save time. -/
theorem C1_checkpoint_roundtrip (s s' : StepByStep P G O X Y)
    (fs : String → Option (Checkpoint P O)) (fn : String) :
    StepByStep.load_checkpoint s' (StepByStep.save_checkpoint s fs fn) fn =
      some { s' with params := s.params, optState := s.optState,
                     total_epochs := s.total_epochs, losses := s.losses,
                     val_losses := s.val_losses, training := true } := by
  unfold StepByStep.load_checkpoint StepByStep.save_checkpoint
  simp

/-- C2: Device fallback.  `to(d)` either sets the device to `d` and
moves the model there, or, when that move raises `RuntimeError`, sets
the device to `'cuda'` when CUDA is available and `'cpu'` otherwise
(`defaultDevice`) and moves the model to that fallback device. -/
theorem C2_device_fallback (T : Torch P G O X Y) (s : StepByStep P G O X Y)
    (d : String) :
    (T.moveOk d = true →
      StepByStep.to T s d = ({ s with device := d, modelDevice := d }, false)) ∧
    (T.moveOk d = false → T.moveOk (defaultDevice T) = true →
      StepByStep.to T s d =
        ({ s with device := defaultDevice T,
                  modelDevice := defaultDevice T }, false)) := by
  constructor
  · intro h
    unfold StepByStep.to
    rw [h]
    simp
  · intro h1 h2
    unfold StepByStep.to
    rw [h1, h2]
    simp

/-- Witness for C2 at a concrete instance: moving to `'cuda'` fails,
the fallback `'cpu'` move succeeds. -/
theorem C2_device_fallback_witness :
    (linTorch 1).moveOk devCuda = false ∧
    (linTorch 1).moveOk (defaultDevice (linTorch 1)) = true ∧
    StepByStep.to (linTorch 1) (StepByStep.init (linTorch 1) 0 ()) devCuda =
      ({ StepByStep.init (linTorch 1) 0 () with
          device := defaultDevice (linTorch 1),
          modelDevice := defaultDevice (linTorch 1) }, false) :=
  ⟨rfl, rfl,
    (C2_device_fallback (linTorch 1) (StepByStep.init (linTorch 1) 0 ()) devCuda).2 rfl rfl⟩

/-- C3: Epoch-loop structure.  `train(n, seed)` adds exactly `n` to
`total_epochs` and appends exactly `n` entries to each loss history;
each epoch body first appends the training-pass value (computed from
the state at the start of the epoch) to `losses`, then appends the
validation-pass value (computed from the post-training state) to
`val_losses`, and bumps `total_epochs` by one. -/
theorem C3_epoch_loop (T : Torch P G O X Y) :
    (∀ (s : StepByStep P G O X Y) (n seed : Nat),
      (StepByStep.train T s n seed).total_epochs = s.total_epochs + n ∧
      (StepByStep.train T s n seed).losses.length = s.losses.length + n ∧
      (StepByStep.train T s n seed).val_losses.length = s.val_losses.length + n) ∧
    (∀ (e : Nat) (s : StepByStep P G O X Y),
      (StepByStep.trainEpoch T e s).losses = s.losses ++ [epochTrainLoss T s] ∧
      (StepByStep.trainEpoch T e s).val_losses = s.val_losses ++ [epochValLoss T s] ∧
      (StepByStep.trainEpoch T e s).total_epochs = s.total_epochs + 1) := by
  constructor
  · intro s n seed
    obtain ⟨ls, vls, h1, h2, h3, h4, h5, _⟩ := runEpochs_spec T s n
    obtain ⟨t1, t2, t3, _⟩ := train_shell T s n seed
    refine ⟨?_, ?_, ?_⟩
    · rw [t3, h5]
    · rw [t1, h3]
      simp [h1]
    · rw [t2, h4]
      simp [h2]
  · intro e s
    obtain ⟨e1, e2, e3, _⟩ := trainEpoch_shape T e s
    exact ⟨e1, e2, e3⟩

/-- C4: Training-step delegation and order.  One training step puts the
model in train mode, and its net effect is exactly: the returned scalar
is the loss of the forward pass at the pre-update parameters, the
parameter update is the library's `optStep` applied to the gradient
that `backward` accumulated (at the pre-update parameters), and the
gradients are zeroed after the step. -/
theorem C4_train_step_order (T : Torch P G O X Y) (s : StepByStep P G O X Y)
    (x : X) (y : Y) :
    StepByStep.perform_train_step_fn T s x y =
      ({ s with training := true
                grads := T.zeroGrad
                optState := (T.optStep s.optState s.params
                  (T.addGrad s.grads (T.gradOf s.params x y))).1
                params := (T.optStep s.optState s.params
                  (T.addGrad s.grads (T.gradOf s.params x y))).2 },
        T.lossVal (T.forward true s.params x) y) := rfl

/-- C5: Per-epoch loss aggregation.  When the selected loader is
present and nonempty, `_mini_batch` returns the arithmetic mean
(`sum / count`) of the per-mini-batch losses produced by the selected
step function over all batches, in loader order. -/
theorem C5_mini_batch_mean (T : Torch P G O X Y) (s : StepByStep P G O X Y)
    (v : Bool) (bs : List (X × Y))
    (hl : (if v then s.val_loader else s.train_loader) = some bs)
    (_hne : bs ≠ []) :
    (runBatches T (StepByStep.step_fn T v) s bs).2.length = bs.length ∧
    (StepByStep.mini_batch T s v).2 =
      some ((runBatches T (StepByStep.step_fn T v) s bs).2.sum /
        ((runBatches T (StepByStep.step_fn T v) s bs).2.length : ℚ)) := by
  refine ⟨runBatches_length T _ bs s, ?_⟩
  rw [mini_batch_some T s v bs hl]
  rfl

/-- Witness for C5 at a concrete instance: a single-batch train
loader. -/
theorem C5_mini_batch_mean_witness :
    ((if false then (linState 1 1 1 0).val_loader
      else (linState 1 1 1 0).train_loader) = some [(1, 0)]) ∧
    ([((1 : ℚ), (0 : ℚ))] ≠ []) ∧
    ((runBatches (linTorch 1) (StepByStep.step_fn (linTorch 1) false)
        (linState 1 1 1 0) [(1, 0)]).2.length = [((1 : ℚ), (0 : ℚ))].length ∧
      (StepByStep.mini_batch (linTorch 1) (linState 1 1 1 0) false).2 =
        some ((runBatches (linTorch 1) (StepByStep.step_fn (linTorch 1) false)
            (linState 1 1 1 0) [(1, 0)]).2.sum /
          ((runBatches (linTorch 1) (StepByStep.step_fn (linTorch 1) false)
            (linState 1 1 1 0) [(1, 0)]).2.length : ℚ))) :=
  ⟨rfl, by simp,
    C5_mini_batch_mean (linTorch 1) (linState 1 1 1 0) false [(1, 0)] rfl (by simp)⟩

/-- C6: TensorBoard logging is conditional on the writer.  When no
writer is set, `train` leaves the writer unset (and there is nothing it
logs to); when a writer is set, `train` appends exactly one scalar
record per epoch — the `'training'` loss always, the `'validation'`
loss exactly for epochs whose validation value is not `None` — and
finally closes the writer. -/
theorem C6_tensorboard_logging (T : Torch P G O X Y)
    (s : StepByStep P G O X Y) (n seed : Nat) :
    (s.writer = none → (StepByStep.train T s n seed).writer = none) ∧
    (∀ w, s.writer = some w → ∃ ls vls : List (Option ℚ),
      ls.length = n ∧ vls.length = n ∧
      (StepByStep.train T s n seed).losses = s.losses ++ ls ∧
      (StepByStep.train T s n seed).val_losses = s.val_losses ++ vls ∧
      (StepByStep.train T s n seed).writer =
        some { log_dir := w.log_dir
               events := w.events ++ epochEvents 0 (ls.zip vls)
               closed := true }) := by
  obtain ⟨ls, vls, h1, h2, h3, h4, h5, h6, h7, h8, h9, h10, h11⟩ := runEpochs_spec T s n
  obtain ⟨t1, t2, _⟩ := train_shell T s n seed
  constructor
  · intro hw
    exact train_writer_none T s n seed (h8 hw)
  · intro w hw
    refine ⟨ls, vls, h1, h2, t1.trans h3, t2.trans h4, ?_⟩
    exact train_writer_some T s n seed _ (h9 w hw)

/-- Witness for C6 at a concrete instance with a writer set for one
epoch. -/
theorem C6_tensorboard_logging_witness :
    linStateTB.writer = some tbWriter0 ∧
    (∃ ls vls : List (Option ℚ),
      ls.length = 1 ∧ vls.length = 1 ∧
      (StepByStep.train (linTorch 1) linStateTB 1 42).losses = linStateTB.losses ++ ls ∧
      (StepByStep.train (linTorch 1) linStateTB 1 42).val_losses = linStateTB.val_losses ++ vls ∧
      (StepByStep.train (linTorch 1) linStateTB 1 42).writer =
        some { log_dir := tbWriter0.log_dir
               events := tbWriter0.events ++ epochEvents 0 (ls.zip vls)
               closed := true }) :=
  ⟨rfl, (C6_tensorboard_logging (linTorch 1) linStateTB 1 42).2 tbWriter0 rfl⟩

/-- C8: Missing-loader behaviour.  `_mini_batch` returns `None` with
the state untouched when the selected loader is absent; hence `train`
with no validation loader appends `None` to `val_losses` every epoch
and logs only bare `'training'` scalar records, and `train` with no
train loader appends `None` to `losses` every epoch instead of
failing. -/
theorem C8_missing_loader (T : Torch P G O X Y) :
    (∀ (s : StepByStep P G O X Y) (v : Bool),
      (if v then s.val_loader else s.train_loader) = none →
      StepByStep.mini_batch T s v = (s, none)) ∧
    (∀ (s : StepByStep P G O X Y) (n seed : Nat), s.val_loader = none →
      (StepByStep.train T s n seed).val_losses =
        s.val_losses ++ List.replicate n none ∧
      (∀ w, s.writer = some w → ∃ evs : List LogEvent,
        (StepByStep.train T s n seed).writer =
          some { log_dir := w.log_dir, events := w.events ++ evs, closed := true } ∧
        ∀ ev ∈ evs, ∃ l k, ev = LogEvent.scalars tagLoss [(tagTraining, l)] k)) ∧
    (∀ (s : StepByStep P G O X Y) (n seed : Nat), s.train_loader = none →
      (StepByStep.train T s n seed).losses = s.losses ++ List.replicate n none) := by
  refine ⟨fun s v h => mini_batch_none T s v h, ?_, ?_⟩
  · intro s n seed hv
    obtain ⟨ls, vls, h1, h2, h3, h4, h5, h6, h7, h8, h9, h10, h11⟩ := runEpochs_spec T s n
    obtain ⟨t1, t2, _⟩ := train_shell T s n seed
    constructor
    · rw [t2, h4, h11 hv]
    · intro w hw
      refine ⟨epochEvents 0 (ls.zip vls), train_writer_some T s n seed _ (h9 w hw), ?_⟩
      refine epochEvents_no_val 0 (ls.zip vls) ?_
      intro p hp
      have hmem := (List.of_mem_zip hp).2
      rw [h11 hv] at hmem
      exact List.eq_of_mem_replicate hmem
  · intro s n seed ht
    obtain ⟨ls, vls, h1, h2, h3, h4, h5, h6, h7, h8, h9, h10, h11⟩ := runEpochs_spec T s n
    obtain ⟨t1, t2, _⟩ := train_shell T s n seed
    rw [t1, h3, h10 ht]

/-- Witness for C8 at a concrete instance: no validation loader, a
writer set, one epoch. -/
theorem C8_missing_loader_witness :
    linStateTB.val_loader = none ∧
    ((StepByStep.train (linTorch 1) linStateTB 1 42).val_losses =
        linStateTB.val_losses ++ List.replicate 1 none ∧
      (∀ w, linStateTB.writer = some w → ∃ evs : List LogEvent,
        (StepByStep.train (linTorch 1) linStateTB 1 42).writer =
          some { log_dir := w.log_dir, events := w.events ++ evs, closed := true } ∧
        ∀ ev ∈ evs, ∃ l k, ev = LogEvent.scalars tagLoss [(tagTraining, l)] k)) :=
  ⟨rfl, (C8_missing_loader (linTorch 1)).2.1 linStateTB 1 42 rfl⟩

/-- C9: Validation does not update parameters.  A validation step only
sets eval mode and returns the loss of the forward pass; a full
validation pass (`_mini_batch(validation=True)`) leaves the parameters,
the gradients and the optimizer state exactly as they were. -/
theorem C9_validation_no_update (T : Torch P G O X Y) :
    (∀ (s : StepByStep P G O X Y) (x : X) (y : Y),
      StepByStep.perform_val_step_fn T s x y =
        ({ s with training := false },
          T.lossVal (T.forward false s.params x) y)) ∧
    (∀ s : StepByStep P G O X Y,
      (StepByStep.mini_batch T s true).1.params = s.params ∧
      (StepByStep.mini_batch T s true).1.grads = s.grads ∧
      (StepByStep.mini_batch T s true).1.optState = s.optState) := by
  refine ⟨fun s x y => rfl, fun s => ?_⟩
  cases hl : s.val_loader with
  | none =>
    rw [mini_batch_none T s true (by simpa using hl)]
    exact ⟨rfl, rfl, rfl⟩
  | some bs =>
    rw [mini_batch_some T s true bs (by simpa using hl)]
    exact runBatches_val_core T bs s

/-- C10: Loss-history lockstep invariant.  The histories start empty
(equal length) after `__init__`; `train` preserves equal length (each
epoch appends exactly one entry to each); `to`, `set_loaders`,
`set_tensorboard`, `predict` and `add_graph` modify neither list;
`save_checkpoint` stores both lists together (and leaves the state
alone); `load_checkpoint` of a saved checkpoint restores both lists
from it, preserving the invariant. -/
theorem C10_lockstep_invariant (T : Torch P G O X Y) :
    (∀ (p : P) (o : O), lockstep (StepByStep.init T p o)) ∧
    (∀ (s : StepByStep P G O X Y) (n seed : Nat),
      lockstep s → lockstep (StepByStep.train T s n seed)) ∧
    (∀ (e : Nat) (s : StepByStep P G O X Y),
      (StepByStep.trainEpoch T e s).losses.length = s.losses.length + 1 ∧
      (StepByStep.trainEpoch T e s).val_losses.length = s.val_losses.length + 1) ∧
    (∀ (s : StepByStep P G O X Y) (d : String),
      (StepByStep.to T s d).1.losses = s.losses ∧
      (StepByStep.to T s d).1.val_losses = s.val_losses) ∧
    (∀ (s : StepByStep P G O X Y) (tl vl : Option (List (X × Y))),
      (StepByStep.set_loaders s tl vl).losses = s.losses ∧
      (StepByStep.set_loaders s tl vl).val_losses = s.val_losses) ∧
    (∀ (s : StepByStep P G O X Y) (name folder suffix : String),
      (StepByStep.set_tensorboard s name folder suffix).losses = s.losses ∧
      (StepByStep.set_tensorboard s name folder suffix).val_losses = s.val_losses) ∧
    (∀ (s : StepByStep P G O X Y) (x : X),
      (StepByStep.predict T s x).1.losses = s.losses ∧
      (StepByStep.predict T s x).1.val_losses = s.val_losses) ∧
    (∀ s : StepByStep P G O X Y,
      (StepByStep.add_graph s).losses = s.losses ∧
      (StepByStep.add_graph s).val_losses = s.val_losses) ∧
    (∀ (s : StepByStep P G O X Y) (fs : String → Option (Checkpoint P O))
      (fn : String),
      StepByStep.save_checkpoint s fs fn fn =
        some { epoch := s.total_epochs, model_state_dict := s.params,
               optimizer_state_dict := s.optState, loss := s.losses,
               val_loss := s.val_losses }) ∧
    (∀ (s s' r : StepByStep P G O X Y) (fs : String → Option (Checkpoint P O))
      (fn : String), lockstep s →
      StepByStep.load_checkpoint s' (StepByStep.save_checkpoint s fs fn) fn =
        some r → lockstep r) := by
  refine ⟨fun p o => rfl, ?_, ?_, ?_, fun s tl vl => ⟨rfl, rfl⟩,
    fun s name folder suffix => ⟨rfl, rfl⟩, fun s x => ⟨rfl, rfl⟩, ?_, ?_, ?_⟩
  · intro s n seed hls
    obtain ⟨ls, vls, h1, h2, h3, h4, _⟩ := runEpochs_spec T s n
    obtain ⟨t1, t2, _⟩ := train_shell T s n seed
    unfold lockstep at hls ⊢
    rw [t1, t2, h3, h4]
    simp [h1, h2, hls]
  · intro e s
    obtain ⟨e1, e2, _⟩ := trainEpoch_shape T e s
    rw [e1, e2]
    simp
  · intro s d
    unfold StepByStep.to
    cases h1 : T.moveOk d <;> cases h2 : T.moveOk (defaultDevice T) <;> simp
  · intro s
    obtain ⟨p, g, o, tr, md, dv, tl, vl, w, ls, vls, te⟩ := s
    cases tl with
    | none => exact ⟨rfl, rfl⟩
    | some l =>
      cases l with
      | nil => exact ⟨rfl, rfl⟩
      | cons b bs => cases w <;> exact ⟨rfl, rfl⟩
  · intro s fs fn
    unfold StepByStep.save_checkpoint
    simp
  · intro s s' r fs fn hls hload
    unfold StepByStep.load_checkpoint StepByStep.save_checkpoint at hload
    simp at hload
    rw [← hload]
    exact hls

/-- Witness for C10 at a concrete instance: the invariant holds after
construction and is preserved by a two-epoch training run and by a
checkpoint round-trip. -/
theorem C10_lockstep_invariant_witness :
    lockstep (linState 1 1 1 0) ∧
    lockstep (StepByStep.train (linTorch 1) (linState 1 1 1 0) 2 42) :=
  ⟨rfl, (C10_lockstep_invariant (linTorch 1)).2.1 (linState 1 1 1 0) 2 42 rfl⟩

/-- C7 counterexample: with learning rate 2 on the single data point
`(1, 0)` and initial weight 1, the recorded training losses after two
epochs are `[1, 9]` — the loss increases, so the training loop does not
guarantee that the recorded training loss decreases. -/
theorem C7_loss_decrease_counterexample :
    (StepByStep.train (linTorch 2) (linState 2 1 1 0) 2 42).losses =
      [some 1, some 9] ∧ ¬ ((9 : ℚ) ≤ 1) := by
  constructor
  · rw [lin_train]
    norm_num [List.range_succ, wseq, wstep, sqErr]
  · norm_num

/-- C7 (amended): the training loop itself does not make the recorded
loss decrease for every optimizer and learning rate; for the
gradient-descent instantiation on a single data point `(x, y)` with
step size satisfying `0 ≤ lr * x^2 ≤ 1`, consecutive recorded training
losses are nonincreasing. -/
theorem C7_loss_decrease_amended (lr x y w0 : ℚ) (n seed : Nat)
    (h0 : 0 ≤ lr * (x * x)) (h1 : lr * (x * x) ≤ 1) (i : Nat) (a b : ℚ)
    (ha : (StepByStep.train (linTorch lr) (linState lr w0 x y) n seed).losses[i]? =
      some (some a))
    (hb : (StepByStep.train (linTorch lr) (linState lr w0 x y) n seed).losses[i + 1]? = some (some b)) :
    b ≤ a := by
  rw [lin_train] at ha hb
  simp only [List.getElem?_map] at ha hb
  have hin : i < n := by
    by_contra hcon
    rw [List.getElem?_eq_none (by simpa using Nat.le_of_not_lt hcon)] at ha
    simp at ha
  have hin2 : i + 1 < n := by
    by_contra hcon
    rw [List.getElem?_eq_none (by simpa using Nat.le_of_not_lt hcon)] at hb
    simp at hb
  rw [List.getElem?_range hin] at ha
  rw [List.getElem?_range hin2] at hb
  simp at ha hb
  rw [← ha, ← hb]
  have hrec : wseq lr x y w0 (i + 1) * x - y =
      (1 - 2 * (lr * (x * x))) * (wseq lr x y w0 i * x - y) := by
    simp only [wseq, wstep]
    ring
  unfold sqErr
  rw [hrec]
  nlinarith [mul_nonneg h0 (sub_nonneg.mpr h1), mul_self_nonneg (wseq lr x y w0 i * x - y),
    mul_nonneg (mul_nonneg h0 (sub_nonneg.mpr h1))
      (mul_self_nonneg (wseq lr x y w0 i * x - y))]

/-- Witness for the amended C7 at a concrete instance: learning rate 1,
data point `(1, 0)`, initial weight 0. -/
theorem C7_loss_decrease_amended_witness :
    (0 ≤ (1 : ℚ) * (1 * 1)) ∧ ((1 : ℚ) * (1 * 1) ≤ 1) ∧
    (StepByStep.train (linTorch 1) (linState 1 0 1 0) 2 42).losses[0]? =
      some (some 0) ∧
    (StepByStep.train (linTorch 1) (linState 1 0 1 0) 2 42).losses[1]? =
      some (some 0) ∧
    (0 : ℚ) ≤ 0 :=
  ⟨by simp, by simp,
    by simp [lin_train, List.range_succ, wseq, wstep, sqErr],
    by simp [lin_train, List.range_succ, wseq, wstep, sqErr],
    C7_loss_decrease_amended 1 1 0 0 2 42 (by simp) (by simp) 0 0 0
      (by simp [lin_train, List.range_succ, wseq, wstep, sqErr])
      (by simp [lin_train, List.range_succ, wseq, wstep, sqErr])⟩

end Claims

end LinRegV0
